import Mathlib

/-!
Shallow embedding of the asset-storage module (`src/storage.js`) of the
repository: the `AssetStorage` class, which adds assets to an embedded IPFS
node, fans out remote pin requests to configured pinning services, and reads
content back by identifier or `ipfs://` URI.

JavaScript strings are sequences of UTF-16 code units; we model them as lists
of characters, with the two string operations the source uses
(`String.prototype.startsWith`, `String.prototype.slice`) defined on that
representation.  Asynchronous methods become state-passing functions that also
return an explicit trace of observable events (node creation, backend
registrations, pin-status queries, pin requests, log lines); a rejected
promise becomes an `Except.error`.  External behaviour the module merely
delegates to (content hashing and chunking inside the node, file contents,
which remote calls fail, the byte-to-text decoders) is a parameter `World`.
-/

/-- Model of a JavaScript string: a list of UTF-16 code units. -/
abbrev JStr := List Char

/-- Model of a byte sequence (the contents of a `Buffer`/`Uint8Array`). -/
abbrev Bytes := List Nat

/-- Model of `s.startsWith(p)` on JavaScript strings. -/
def jsStartsWith : JStr → JStr → Bool
  | _, [] => true
  | [], _ :: _ => false
  | c :: s, d :: p => c == d && jsStartsWith s p

/-- Model of `s.slice(n)` on JavaScript strings: drop the first `n` units. -/
def jsSlice (s : JStr) (n : Nat) : JStr := s.drop n

/-- The literal scheme string stripped by `get`. -/
def ipfsScheme : JStr := ['i', 'p', 'f', 's', ':', '/', '/']

/-- Model of the `accessToken` field of a pinning-service configuration:
either a literal secret, or a zero-argument function producing one
(the source tests `typeof svc.accessToken === 'function'`). -/
inductive AccessToken where
  | literal (secret : JStr)
  | func (f : Unit → JStr)

/-- Model of the credential-resolution lines of `init`:
take `svc.accessToken` as the key, but call it first if it is a function. -/
def resolveKey : AccessToken → JStr
  | .literal s => s
  | .func f => f ()

/-- Configuration record for one remote pinning service. -/
structure PinningServiceConfig where
  name : JStr
  endpoint : JStr
  accessToken : AccessToken

/-- Configuration of an `AssetStorage` instance. -/
structure AssetStorageConfig where
  pinningServices : List PinningServiceConfig

/-- State of the embedded IPFS node (the `ipfs-core` instance) as observed by
the storage module: stored content (identifier to chunk list, newest entry
first), the pin records held by each remote service (service name, cid), and
the remote pinning services registered with the node (name, endpoint, key). -/
structure IpfsNode where
  content : List (JStr × List Bytes)
  remotePins : List (JStr × JStr)
  remoteServices : List (JStr × JStr × JStr)

/-- External behaviour the module delegates to: the node's content-addressing
function (`ipfs.add` derives the identifier from the bytes), its chunking of
stored content (`ipfs.cat` yields the chunks back), local file contents
(`fs.readFile`), which remote operations reject, and the byte-to-text
decoders of the `uint8arrays` library. -/
structure World where
  hash : Bytes → JStr
  chunk : Bytes → List Bytes
  fileContents : JStr → Option Bytes
  lsFails : JStr → JStr → Bool
  pinAddFails : JStr → JStr → Bool
  svcAddFails : JStr → Bool
  toUtf8 : Bytes → JStr
  toBase64 : Bytes → JStr

/-- Failures that can surface from the module's operations. -/
inductive Err where
  | ioError (filename : JStr)
  | svcAddFailed (name : JStr)
  | lsFailed (service cid : JStr)
  | pinAddFailed (service cid : JStr)
  | notFound (cid : JStr)
  | uninitializedNode
deriving DecidableEq

deriving instance DecidableEq for Except

/-- Observable events of a run: node-level calls and log lines. -/
inductive Event where
  | nodeCreate
  | svcAddAttempt (name endpoint key : JStr)
  | queryPinned (service cid : JStr)
  | pinRequest (service cid : JStr) (background : Bool)
  | logNoServices (cid : JStr)
  | logAlreadyPinned (cid : JStr)
  | logPinned (cid : JStr)
  | logPinError
deriving DecidableEq

/-- Events that belong to initialization: node creation and backend
registration. -/
def Event.isSetup : Event → Bool
  | .nodeCreate => true
  | .svcAddAttempt _ _ _ => true
  | _ => false

/-- Number of occurrences of an event in a trace. -/
def countEv (e : Event) : List Event → Nat
  | [] => 0
  | x :: t => (if x = e then 1 else 0) + countEv e t

/-- The pin records of the node's remote services that match a given
(service, cid) pair; this is what `pin.remote.ls({cid: [cid], service})`
reports. -/
def matchingPins (n : IpfsNode) (service cid : JStr) : List (JStr × JStr) :=
  n.remotePins.filter (fun p => p.1 == service && p.2 == cid)

/-- Model of `this.ipfs.add({path, content})`: the node stores the chunked
content under its content-derived identifier and returns that identifier.
The attached path (a base name) does not affect what `ipfs.cat` later
returns for the identifier, so the node state does not retain it. -/
def IpfsNode.addContent (w : World) (n : IpfsNode) (_path : JStr) (data : Bytes) :
    IpfsNode × JStr :=
  let cid := w.hash data
  ({ n with content := (cid, w.chunk data) :: n.content }, cid)

/-- Model of `all(this.ipfs.cat(cid))`: the chunks stored for the identifier,
or a not-found failure when the node cannot resolve it. -/
def IpfsNode.catChunks (n : IpfsNode) (cid : JStr) : Except Err (List Bytes) :=
  match n.content.lookup cid with
  | some chunks => .ok chunks
  | none => .error (.notFound cid)

/-- Model of `this.ipfs.pin.remote.ls({cid: [cid], service})`: the backend's
matching pin records, or a rejected promise. -/
def IpfsNode.pinRemoteLs (w : World) (n : IpfsNode) (cid service : JStr) :
    Except Err (List (JStr × JStr)) :=
  if w.lsFails service cid then .error (.lsFailed service cid)
  else .ok (matchingPins n service cid)

/-- Model of `this.ipfs.pin.remote.add(cid, {service, background})`: ask the
backend to pin; on success the (service, cid) pin record exists afterwards. -/
def IpfsNode.pinRemoteAdd (w : World) (n : IpfsNode) (cid service : JStr)
    (_background : Bool) : Except Err IpfsNode :=
  if w.pinAddFails service cid then .error (.pinAddFailed service cid)
  else .ok { n with remotePins := (service, cid) :: n.remotePins }

/-- Model of `this.ipfs.pin.remote.service.add(name, {endpoint, key})`. -/
def IpfsNode.pinRemoteServiceAdd (w : World) (n : IpfsNode)
    (name endpoint key : JStr) : Except Err IpfsNode :=
  if w.svcAddFails name then .error (.svcAddFailed name)
  else .ok { n with remoteServices := (name, endpoint, key) :: n.remoteServices }

/-- State of an `AssetStorage` instance: its configuration, the
`_initialized` flag, the node handle (`undefined` before initialization,
modelled as `none`), and the list of successfully registered remote
pinning-service names. -/
structure AssetStorage where
  config : AssetStorageConfig
  _initialized : Bool
  ipfs : Option IpfsNode
  pinningServices : List JStr

/-- Model of `new AssetStorage(config)`. -/
def AssetStorage.mkNew (config : AssetStorageConfig) : AssetStorage :=
  { config := config, _initialized := false, ipfs := none, pinningServices := [] }

/-- Model of the `for (const svc of this.config.pinningServices)` loop of
`init`: resolve the credential, register the service with the node, and push
the name on success.  A rejected registration aborts the loop and the
exception propagates (names pushed so far are kept); the returned components
are the loop's result, the node, the pushed names, and the trace. -/
def registerLoop (w : World) (n : IpfsNode) :
    List PinningServiceConfig → Except Err Unit × IpfsNode × List JStr × List Event
  | [] => (.ok (), n, [], [])
  | svc :: rest =>
    let key := resolveKey svc.accessToken
    match IpfsNode.pinRemoteServiceAdd w n svc.name svc.endpoint key with
    | .error e => (.error e, n, [], [.svcAddAttempt svc.name svc.endpoint key])
    | .ok n1 =>
      let (r, n2, names, t) := registerLoop w n1 rest
      (r, n2, svc.name :: names, .svcAddAttempt svc.name svc.endpoint key :: t)

/-- Model of `async init()`: return at once when already initialized;
otherwise create the node, register every configured pinning service (a
failure aborts, leaving `_initialized` false with the node and the names
pushed so far in place), and finally set `_initialized`. -/
def AssetStorage.init (w : World) (s : AssetStorage) :
    Except Err Unit × AssetStorage × List Event :=
  if s._initialized then (.ok (), s, [])
  else
    let n : IpfsNode := { content := [], remotePins := [], remoteServices := [] }
    match registerLoop w n s.config.pinningServices with
    | (.error e, n1, names, t) =>
      (.error e,
       { s with ipfs := some n1, pinningServices := s.pinningServices ++ names },
       .nodeCreate :: t)
    | (.ok _, n1, names, t) =>
      (.ok (),
       { s with ipfs := some n1, pinningServices := s.pinningServices ++ names,
                _initialized := true },
       .nodeCreate :: t)

/-- Model of `async isPinned(cid, service)`: the `for await` loop returns
`true` on the first record yielded by `pin.remote.ls`, and `false` when the
listing is empty.  The method reads `this.ipfs`, passed here as `n`. -/
def AssetStorage.isPinned (w : World) (n : IpfsNode) (cid service : JStr) :
    Except Err Bool :=
  match IpfsNode.pinRemoteLs w n cid service with
  | .error e => .error e
  | .ok records => .ok (!records.isEmpty)

/-- Model of `async _pinIfUnpinned(cid, service)`: query the backend's pin
status; when the identifier is not already pinned, issue one foreground
(`background: false`) pin request. -/
def AssetStorage._pinIfUnpinned (w : World) (n : IpfsNode) (cid service : JStr) :
    Except Err Unit × IpfsNode × List Event :=
  match AssetStorage.isPinned w n cid service with
  | .error e => (.error e, n, [.queryPinned service cid])
  | .ok true => (.ok (), n, [.queryPinned service cid, .logAlreadyPinned cid])
  | .ok false =>
    match IpfsNode.pinRemoteAdd w n cid service false with
    | .error e => (.error e, n, [.queryPinned service cid, .pinRequest service cid false])
    | .ok n1 => (.ok (), n1, [.queryPinned service cid, .pinRequest service cid false])

/-- Model of the fan-out loop of `pin` together with `Promise.all`: one
`_pinIfUnpinned` per registered service.  Distinct backends are independent
(each call touches only its own service's pin records), so sequencing the
per-backend calls is faithful to the concurrent original when the registered
names are distinct; the Bool records whether any per-backend promise
rejected. -/
def pinFanout (w : World) (n : IpfsNode) (cid : JStr) :
    List JStr → Bool × IpfsNode × List Event
  | [] => (false, n, [])
  | svc :: rest =>
    let (r, n1, t1) := AssetStorage._pinIfUnpinned w n cid svc
    let (anyErr, n2, t2) := pinFanout w n1 cid rest
    ((match r with | .error _ => true | .ok _ => false) || anyErr, n2, t1 ++ t2)

/-- Model of `async pin(cid)`: ensure initialization; with no registered
services, log and return; otherwise fan out to every registered service and
catch any rejection from `Promise.all`, only logging it. -/
def AssetStorage.pin (w : World) (s : AssetStorage) (cid : JStr) :
    Except Err Unit × AssetStorage × List Event :=
  match AssetStorage.init w s with
  | (.error e, s1, t1) => (.error e, s1, t1)
  | (.ok _, s1, t1) =>
    if s1.pinningServices.length < 1 then
      (.ok (), s1, t1 ++ [.logNoServices cid])
    else
      match s1.ipfs with
      | none => (.error .uninitializedNode, s1, t1)
      | some n =>
        let (anyErr, n1, t2) := pinFanout w n cid s1.pinningServices
        let tEnd := if anyErr then [Event.logPinError] else [Event.logPinned cid]
        (.ok (), { s1 with ipfs := some n1 }, t1 ++ t2 ++ tEnd)

/-- Model of `path.basename(filename)`: the part after the last slash. -/
def baseName (s : JStr) : JStr :=
  s.foldl (fun acc c => if c == '/' then [] else acc ++ [c]) []

/-- Model of `async addAsset(filename, assetData = null)`: ensure
initialization; read the file when no data is supplied; add the data to the
node, obtaining the content identifier; pin it across all services; return
the identifier. -/
def AssetStorage.addAsset (w : World) (s : AssetStorage) (filename : JStr)
    (assetData : Option Bytes) : Except Err JStr × AssetStorage × List Event :=
  match AssetStorage.init w s with
  | (.error e, s1, t1) => (.error e, s1, t1)
  | (.ok _, s1, t1) =>
    let dataRes : Except Err Bytes :=
      match assetData with
      | some d => .ok d
      | none =>
        match w.fileContents filename with
        | some d => .ok d
        | none => .error (.ioError filename)
    match dataRes with
    | .error e => (.error e, s1, t1)
    | .ok data =>
      match s1.ipfs with
      | none => (.error .uninitializedNode, s1, t1)
      | some n =>
        let (n1, cid) := IpfsNode.addContent w n (baseName filename) data
        let s2 := { s1 with ipfs := some n1 }
        match AssetStorage.pin w s2 cid with
        | (.error e, s3, t2) => (.error e, s3, t1 ++ t2)
        | (.ok _, s3, t2) => (.ok cid, s3, t1 ++ t2)

/-- The identifier `get` resolves an input to: strip a leading `ipfs://`
scheme when present, otherwise use the string as-is
(`cidOrURI.startsWith('ipfs://')` then `slice('ipfs://'.length)`). -/
def resolveCid (cidOrURI : JStr) : JStr :=
  if jsStartsWith cidOrURI ipfsScheme then jsSlice cidOrURI ipfsScheme.length
  else cidOrURI

/-- Model of `async get(cidOrURI)`: resolve the identifier and concatenate
the chunks the node yields for it.  The source does not call `this.init()`
here; on an uninitialized instance `this.ipfs.cat` is a method call on
`undefined`, modelled as `Err.uninitializedNode`. -/
def AssetStorage.get (s : AssetStorage) (cidOrURI : JStr) :
    Except Err Bytes × AssetStorage × List Event :=
  let cid := resolveCid cidOrURI
  match s.ipfs with
  | none => (.error .uninitializedNode, s, [])
  | some n =>
    match IpfsNode.catChunks n cid with
    | .error e => (.error e, s, [])
    | .ok chunks => (.ok chunks.flatten, s, [])

/-- Model of `async getString(cidOrURI)`: decode the bytes as UTF-8. -/
def AssetStorage.getString (w : World) (s : AssetStorage) (cidOrURI : JStr) :
    Except Err JStr × AssetStorage × List Event :=
  match AssetStorage.get s cidOrURI with
  | (.error e, s1, t) => (.error e, s1, t)
  | (.ok bytes, s1, t) => (.ok (w.toUtf8 bytes), s1, t)

/-- Model of `async getBase64String(cidOrURI)`: encode the bytes as
base64. -/
def AssetStorage.getBase64String (w : World) (s : AssetStorage) (cidOrURI : JStr) :
    Except Err JStr × AssetStorage × List Event :=
  match AssetStorage.get s cidOrURI with
  | (.error e, s1, t) => (.error e, s1, t)
  | (.ok bytes, s1, t) => (.ok (w.toBase64 bytes), s1, t)

/-- Model of `MakeAssetStorage(config)`: construct an instance and
initialize it. -/
def MakeAssetStorage (w : World) (config : AssetStorageConfig) :
    Except Err AssetStorage × List Event :=
  match AssetStorage.init w (AssetStorage.mkNew config) with
  | (.error e, _, t) => (.error e, t)
  | (.ok _, s, t) => (.ok s, t)

/-! Concrete instances used by witnesses and counterexamples. -/

/-- A node with no content, no pins and no services. -/
def nodeEmpty : IpfsNode := { content := [], remotePins := [], remoteServices := [] }

/-- A failure-free external world with a constant content hash and
one-chunk storage. -/
def wEx : World :=
  { hash := fun _ => ['c'], chunk := fun b => [b], fileContents := fun _ => none,
    lsFails := fun _ _ => false, pinAddFails := fun _ _ => false,
    svcAddFails := fun _ => false, toUtf8 := fun _ => [], toBase64 := fun _ => [] }

/-- Like `wEx`, but registration of the service named `a` is rejected. -/
def wC8 : World := { wEx with svcAddFails := fun nm => nm == ['a'] }

/-- An initialized store with the single registered service `a`. -/
def sEx : AssetStorage :=
  { config := ⟨[]⟩, _initialized := true, ipfs := some nodeEmpty,
    pinningServices := [['a']] }

/-- A node whose remote service `a` already pins the identifier `c`. -/
def nodePinned : IpfsNode :=
  { content := [], remotePins := [(['a'], ['c'])], remoteServices := [] }

/-- An initialized store whose backend `a` already pins the identifier `c`. -/
def sPinned : AssetStorage :=
  { config := ⟨[]⟩, _initialized := true, ipfs := some nodePinned,
    pinningServices := [['a']] }

/-- A node holding distinct content under the identifiers `A` and
`ipfs://A`. -/
def nodeC5 : IpfsNode :=
  { content := [(['A'], [[1]]), (ipfsScheme ++ ['A'], [[2]])],
    remotePins := [], remoteServices := [] }

/-- An initialized store over `nodeC5`. -/
def storeC5 : AssetStorage :=
  { config := ⟨[]⟩, _initialized := true, ipfs := some nodeC5, pinningServices := [] }

/-- A freshly constructed (uninitialized) store with no services. -/
def storeC4 : AssetStorage := AssetStorage.mkNew ⟨[]⟩

/-- A pinning-service configuration named `a`. -/
def svcA : PinningServiceConfig :=
  { name := ['a'], endpoint := ['e', 'a'], accessToken := .literal ['k', 'a'] }

/-- A pinning-service configuration named `b`. -/
def svcB : PinningServiceConfig :=
  { name := ['b'], endpoint := ['e', 'b'], accessToken := .literal ['k', 'b'] }

/-- A freshly constructed store configured with services `a` and `b`. -/
def storeC8 : AssetStorage := AssetStorage.mkNew ⟨[svcA, svcB]⟩

/-! Basic lemmas about the string helpers and traces. -/

theorem jsStartsWith_append (p r : JStr) : jsStartsWith (p ++ r) p = true := by
  induction p with
  | nil => cases r <;> rfl
  | cons c p ih => simp [jsStartsWith, ih]

theorem resolveCid_scheme_append (x : JStr) : resolveCid (ipfsScheme ++ x) = x := by
  simp only [resolveCid, jsStartsWith_append, if_true, jsSlice]
  exact List.drop_left ipfsScheme x

theorem resolveCid_of_not_scheme (x : JStr) (h : jsStartsWith x ipfsScheme = false) :
    resolveCid x = x := by
  simp [resolveCid, h]

theorem countEv_append (e : Event) (t1 t2 : List Event) :
    countEv e (t1 ++ t2) = countEv e t1 + countEv e t2 := by
  induction t1 with
  | nil => simp [countEv]
  | cons x t ih => simp [countEv, ih]; omega

/-! Trace-shape lemmas for the pinning fan-out. -/

theorem pinIfUnpinned_trace_isSetup (w : World) (n : IpfsNode) (cid svc : JStr) :
    ∀ e ∈ (AssetStorage._pinIfUnpinned w n cid svc).2.2, e.isSetup = false := by
  unfold AssetStorage._pinIfUnpinned
  rcases h : AssetStorage.isPinned w n cid svc with e0 | b
  · simp [Event.isSetup]
  · cases b
    · rcases h2 : IpfsNode.pinRemoteAdd w n cid svc false with e0 | n1 <;>
        simp [Event.isSetup]
    · simp [Event.isSetup]

theorem pinFanout_isSetup (w : World) (cid : JStr) :
    ∀ (L : List JStr) (n : IpfsNode),
      ∀ e ∈ (pinFanout w n cid L).2.2, e.isSetup = false := by
  intro L
  induction L with
  | nil => intro n e he; simp [pinFanout] at he
  | cons svc rest ih =>
    intro n e he
    rcases h1 : AssetStorage._pinIfUnpinned w n cid svc with ⟨r, n1, t1⟩
    rcases h2 : pinFanout w n1 cid rest with ⟨anyErr, n2, t2⟩
    simp only [pinFanout, h1, h2, List.mem_append] at he
    rcases he with he | he
    · have := pinIfUnpinned_trace_isSetup w n cid svc
      rw [h1] at this
      exact this e he
    · have := ih n1
      rw [h2] at this
      exact this e he

/-- Frame conditions of `pin` on an already-initialized store: the
registered-services list, the configuration and the flag are untouched, and
the trace contains no initialization events. -/
theorem pin_initialized_frame (w : World) (s : AssetStorage) (cid : JStr)
    (hinit : s._initialized = true) :
    (AssetStorage.pin w s cid).2.1.pinningServices = s.pinningServices ∧
    (AssetStorage.pin w s cid).2.1.config = s.config ∧
    (AssetStorage.pin w s cid).2.1._initialized = true ∧
    (∀ e ∈ (AssetStorage.pin w s cid).2.2, e.isSetup = false) := by
  unfold AssetStorage.pin
  simp only [AssetStorage.init, hinit, if_true]
  by_cases hl : s.pinningServices.length < 1
  · simp [hl, Event.isSetup, hinit]
  · rcases hs : s.ipfs with _ | n
    · simp [hl, hs, hinit]
    · rcases hf : pinFanout w n cid s.pinningServices with ⟨anyErr, n1, t2⟩
      refine ⟨?_, ?_, ?_, ?_⟩
      · simp [hl, hs, hf]
      · simp [hl, hs, hf]
      · simp [hl, hs, hf, hinit]
      · intro e he
        simp only [hl, if_false, hs, hf, List.nil_append, List.mem_append] at he
        rcases he with he | he
        · have := pinFanout_isSetup w cid s.pinningServices n
          rw [hf] at this
          exact this e he
        · cases anyErr <;> simp_all [Event.isSetup]

/-- Frame conditions of `addAsset` on an already-initialized store: the
registered-services list is untouched and the trace contains no
initialization events. -/
theorem addAsset_initialized_frame (w : World) (s : AssetStorage)
    (filename : JStr) (data : Option Bytes) (hinit : s._initialized = true) :
    (AssetStorage.addAsset w s filename data).2.1.pinningServices = s.pinningServices ∧
    (∀ e ∈ (AssetStorage.addAsset w s filename data).2.2, e.isSetup = false) := by
  have hInit : AssetStorage.init w s = (.ok (), s, []) := by
    simp [AssetStorage.init, hinit]
  unfold AssetStorage.addAsset
  simp only [hInit]
  rcases data with _ | d
  · rcases hfc : w.fileContents filename with _ | d
    · simp [hfc]
    · simp only [hfc]
      rcases hs : s.ipfs with _ | n
      · simp [hs]
      · simp only [hs, IpfsNode.addContent]
        rcases hp : AssetStorage.pin w { s with ipfs := some { n with
            content := (w.hash d, w.chunk d) :: n.content } } (w.hash d) with ⟨rp, s3, t2⟩
        have frame := pin_initialized_frame w { s with ipfs := some { n with
            content := (w.hash d, w.chunk d) :: n.content } } (w.hash d) hinit
        rw [hp] at frame
        rcases rp with e0 | u0 <;>
          simp only [hp] <;>
          exact ⟨frame.1, fun e' he' => frame.2.2.2 e' he'⟩
  · rcases hs : s.ipfs with _ | n
    · simp [hs]
    · simp only [hs, IpfsNode.addContent]
      rcases hp : AssetStorage.pin w { s with ipfs := some { n with
          content := (w.hash d, w.chunk d) :: n.content } } (w.hash d) with ⟨rp, s3, t2⟩
      have frame := pin_initialized_frame w { s with ipfs := some { n with
          content := (w.hash d, w.chunk d) :: n.content } } (w.hash d) hinit
      rw [hp] at frame
      rcases rp with e0 | u0 <;>
        simp only [hp] <;>
        exact ⟨frame.1, fun e' he' => frame.2.2.2 e' he'⟩

/-- C6: with zero registered backends (and none configured), `pin(cid)`
completes without error and logs the degraded condition. -/
theorem pin_no_backends_ok (w : World) (s : AssetStorage) (cid : JStr)
    (hsvc : s.pinningServices = []) (hcfg : s.config.pinningServices = []) :
    (AssetStorage.pin w s cid).1 = .ok () ∧
    Event.logNoServices cid ∈ (AssetStorage.pin w s cid).2.2 := by
  unfold AssetStorage.pin
  cases hi : s._initialized
  · simp [AssetStorage.init, hi, hcfg, registerLoop, hsvc]
  · simp [AssetStorage.init, hi, hsvc]

/-- C6 witness: pinning with a fresh store configured with no services. -/
theorem pin_no_backends_ok_witness :
    (AssetStorage.pin wEx storeC4 ['c']).1 = .ok () ∧
    Event.logNoServices ['c'] ∈ (AssetStorage.pin wEx storeC4 ['c']).2.2 :=
  pin_no_backends_ok wEx storeC4 ['c'] rfl rfl

/-- C7: on an initialized store, `pin(cid)` always resolves successfully
(`Promise.all` rejections are caught), and when some per-backend operation
failed the error is only logged. -/
theorem pin_swallows_backend_failures (w : World) (s : AssetStorage)
    (n : IpfsNode) (cid : JStr) (hinit : s._initialized = true)
    (hipfs : s.ipfs = some n) :
    (AssetStorage.pin w s cid).1 = .ok () ∧
    ((pinFanout w n cid s.pinningServices).1 = true →
      Event.logPinError ∈ (AssetStorage.pin w s cid).2.2) := by
  unfold AssetStorage.pin
  simp only [AssetStorage.init, hinit, if_true]
  by_cases hl : s.pinningServices.length < 1
  · constructor
    · simp [hl]
    · intro hErr
      have hnil : s.pinningServices = [] := List.length_eq_zero.mp (by omega)
      rw [hnil] at hErr
      simp [pinFanout] at hErr
  · rw [if_neg hl]
    simp only [hipfs]
    rcases hf : pinFanout w n cid s.pinningServices with ⟨anyErr, n1, t2⟩
    simp only [hf]
    constructor
    · trivial
    · intro hErr
      simp [hErr]

/-- C7 witness: pinning on an initialized one-service store. -/
theorem pin_swallows_backend_failures_witness :
    (AssetStorage.pin wEx sEx ['c']).1 = .ok () ∧
    ((pinFanout wEx nodeEmpty ['c'] sEx.pinningServices).1 = true →
      Event.logPinError ∈ (AssetStorage.pin wEx sEx ['c']).2.2) :=
  pin_swallows_backend_failures wEx sEx nodeEmpty ['c'] rfl rfl

/-- C9: once initialization has completed (`_initialized` is set), `init` is
a no-op returning the state unchanged with an empty trace, and the public
operations that call it (`pin`, `addAsset`) leave the registered-services
list unchanged and emit no node-creation or backend-registration event. -/
theorem init_idempotent_after_completion (w : World) (s : AssetStorage)
    (filename cid : JStr) (data : Option Bytes) (hinit : s._initialized = true) :
    AssetStorage.init w s = (.ok (), s, []) ∧
    (AssetStorage.pin w s cid).2.1.pinningServices = s.pinningServices ∧
    (∀ e ∈ (AssetStorage.pin w s cid).2.2, e.isSetup = false) ∧
    (AssetStorage.addAsset w s filename data).2.1.pinningServices = s.pinningServices ∧
    (∀ e ∈ (AssetStorage.addAsset w s filename data).2.2, e.isSetup = false) := by
  have hPin := pin_initialized_frame w s cid hinit
  have hAdd := addAsset_initialized_frame w s filename data hinit
  exact ⟨by simp [AssetStorage.init, hinit], hPin.1, hPin.2.2.2, hAdd.1, hAdd.2⟩

/-- C9 witness: an initialized one-service store. -/
theorem init_idempotent_after_completion_witness :
    AssetStorage.init wEx sEx = (.ok (), sEx, []) ∧
    (AssetStorage.pin wEx sEx ['c']).2.1.pinningServices = sEx.pinningServices ∧
    (∀ e ∈ (AssetStorage.pin wEx sEx ['c']).2.2, e.isSetup = false) ∧
    (AssetStorage.addAsset wEx sEx ['f'] (some [1])).2.1.pinningServices =
      sEx.pinningServices ∧
    (∀ e ∈ (AssetStorage.addAsset wEx sEx ['f'] (some [1])).2.2, e.isSetup = false) :=
  init_idempotent_after_completion wEx sEx ['f'] ['c'] (some [1]) rfl

/-- C10: `get` strips only the literal `ipfs://` scheme, only at the very
start of the input, and only once: the resolved identifier of
`ipfs://` ++ `X` is `X`; an input not starting with `ipfs://` (for example
one with another scheme) is passed to the node verbatim; and
`ipfs://ipfs://X` resolves the identifier `ipfs://X`.  The last two
conjuncts tie the resolution to what `get` actually reads from the node. -/
theorem get_strips_scheme_literally_once (s : AssetStorage) (n : IpfsNode)
    (x u : JStr) (hn : s.ipfs = some n) (hu : jsStartsWith u ipfsScheme = false) :
    resolveCid (ipfsScheme ++ x) = x ∧
    resolveCid u = u ∧
    resolveCid (ipfsScheme ++ (ipfsScheme ++ x)) = ipfsScheme ++ x ∧
    (AssetStorage.get s (ipfsScheme ++ (ipfsScheme ++ x))).1 =
      (IpfsNode.catChunks n (ipfsScheme ++ x)).map List.flatten ∧
    (AssetStorage.get s u).1 = (IpfsNode.catChunks n u).map List.flatten := by
  refine ⟨resolveCid_scheme_append x, resolveCid_of_not_scheme u hu,
    resolveCid_scheme_append _, ?_, ?_⟩
  · simp only [AssetStorage.get, resolveCid_scheme_append, hn]
    rcases hc : IpfsNode.catChunks n (ipfsScheme ++ x) with e | chunks <;>
      simp [hc, Except.map]
  · simp only [AssetStorage.get, resolveCid_of_not_scheme u hu, hn]
    rcases hc : IpfsNode.catChunks n u with e | chunks <;>
      simp [hc, Except.map]

/-- C10 witness: concrete store, identifier `A` and verbatim input `hA`. -/
theorem get_strips_scheme_literally_once_witness :
    resolveCid (ipfsScheme ++ ['A']) = ['A'] ∧
    resolveCid ['h', 'A'] = ['h', 'A'] ∧
    resolveCid (ipfsScheme ++ (ipfsScheme ++ ['A'])) = ipfsScheme ++ ['A'] ∧
    (AssetStorage.get storeC5 (ipfsScheme ++ (ipfsScheme ++ ['A']))).1 =
      (IpfsNode.catChunks nodeC5 (ipfsScheme ++ ['A'])).map List.flatten ∧
    (AssetStorage.get storeC5 ['h', 'A']).1 =
      (IpfsNode.catChunks nodeC5 ['h', 'A']).map List.flatten :=
  get_strips_scheme_literally_once storeC5 nodeC5 ['A'] ['h', 'A'] rfl (by decide)

/-- C5 counterexample: for the identifier `X = ipfs://A` (which itself
begins with the scheme), `get("ipfs://X")` and `get("X")` resolve different
content on a store whose node holds distinct data under `A` and
`ipfs://A`, because `get("X")` strips the scheme out of the bare
identifier. -/
theorem get_uri_tolerance_cex :
    (AssetStorage.get storeC5 (ipfsScheme ++ (ipfsScheme ++ ['A']))).1 ≠
      (AssetStorage.get storeC5 (ipfsScheme ++ ['A'])).1 := by
  have h1 : (AssetStorage.get storeC5 (ipfsScheme ++ (ipfsScheme ++ ['A']))).1 =
      Except.ok ([2] : Bytes) := rfl
  have h2 : (AssetStorage.get storeC5 (ipfsScheme ++ ['A'])).1 =
      Except.ok ([1] : Bytes) := rfl
  rw [h1, h2]
  simp

/-- C5 amended: for every identifier `X` that does not itself begin with
`ipfs://`, `get("ipfs://X")` and `get("X")` behave identically. -/
theorem get_uri_tolerance_unprefixed (s : AssetStorage) (x : JStr)
    (hx : jsStartsWith x ipfsScheme = false) :
    AssetStorage.get s (ipfsScheme ++ x) = AssetStorage.get s x := by
  simp only [AssetStorage.get, resolveCid_scheme_append,
    resolveCid_of_not_scheme x hx]

/-- C5 amended witness: the identifier `A` on a concrete store. -/
theorem get_uri_tolerance_unprefixed_witness :
    AssetStorage.get storeC5 (ipfsScheme ++ ['A']) = AssetStorage.get storeC5 ['A'] :=
  get_uri_tolerance_unprefixed storeC5 ['A'] (by decide)

/-- C4 counterexample: `get` on a freshly constructed (uninitialized) store
does not trigger initialization — it fails on the absent node handle,
leaves the state unchanged and performs no node creation. -/
theorem get_uninitialized_fails_cex :
    (AssetStorage.get storeC4 ['Q', 'm', 'X']).1 = .error .uninitializedNode ∧
    (AssetStorage.get storeC4 ['Q', 'm', 'X']).2.1 = storeC4 ∧
    (AssetStorage.get storeC4 ['Q', 'm', 'X']).2.2 = [] :=
  ⟨rfl, rfl, rfl⟩

/-- C4 amended: the read operations `get`, `getString` and
`getBase64String` do not ensure initialization; on a store whose node
handle is absent each fails with an uninitialized-node error, leaves the
state unchanged and triggers no initialization. -/
theorem read_ops_do_not_ensure_init (w : World) (s : AssetStorage) (u : JStr)
    (hn : s.ipfs = none) :
    AssetStorage.get s u = (.error .uninitializedNode, s, []) ∧
    AssetStorage.getString w s u = (.error .uninitializedNode, s, []) ∧
    AssetStorage.getBase64String w s u = (.error .uninitializedNode, s, []) := by
  have hg : AssetStorage.get s u = (.error .uninitializedNode, s, []) := by
    simp [AssetStorage.get, hn]
  refine ⟨hg, ?_, ?_⟩ <;>
    simp [AssetStorage.getString, AssetStorage.getBase64String, hg]

/-- C4 amended witness: a freshly constructed store. -/
theorem read_ops_do_not_ensure_init_witness :
    AssetStorage.get storeC4 ['Q'] = (.error .uninitializedNode, storeC4, []) ∧
    AssetStorage.getString wEx storeC4 ['Q'] =
      (.error .uninitializedNode, storeC4, []) ∧
    AssetStorage.getBase64String wEx storeC4 ['Q'] =
      (.error .uninitializedNode, storeC4, []) :=
  read_ops_do_not_ensure_init wEx storeC4 ['Q'] rfl

/-- Characterization of the registration loop: the pushed names are exactly
the names of the longest prefix of successfully registering services, the
attempted registrations (with resolved credentials) are that prefix plus the
first failing service when one exists, and the loop succeeds exactly when
every configured service registers. -/
theorem registerLoop_spec (w : World) :
    ∀ (cfgs : List PinningServiceConfig) (n : IpfsNode),
      (registerLoop w n cfgs).2.2.1 =
        (cfgs.takeWhile (fun c => !w.svcAddFails c.name)).map (fun c => c.name) ∧
      (registerLoop w n cfgs).2.2.2 =
        (cfgs.take ((cfgs.takeWhile (fun c => !w.svcAddFails c.name)).length + 1)).map
          (fun c => Event.svcAddAttempt c.name c.endpoint (resolveKey c.accessToken)) ∧
      ((registerLoop w n cfgs).1 = .ok () ↔
        (cfgs.takeWhile (fun c => !w.svcAddFails c.name)).length = cfgs.length) := by
  intro cfgs
  induction cfgs with
  | nil => intro n; simp [registerLoop]
  | cons svc rest ih =>
    intro n
    by_cases hf : w.svcAddFails svc.name
    · refine ⟨?_, ?_, ?_⟩
      · simp [registerLoop, IpfsNode.pinRemoteServiceAdd, hf, List.takeWhile_cons]
      · simp [registerLoop, IpfsNode.pinRemoteServiceAdd, hf, List.takeWhile_cons]
      · have hTW : (svc :: rest).takeWhile (fun c => !w.svcAddFails c.name) = [] := by
          simp [List.takeWhile_cons, hf]
        rw [hTW]
        constructor
        · intro hcontra
          simp [registerLoop, IpfsNode.pinRemoteServiceAdd, hf] at hcontra
        · intro hcontra
          simp only [List.length_nil, List.length_cons] at hcontra
          omega
    · rcases hr : registerLoop w
          { n with remoteServices :=
              (svc.name, svc.endpoint, resolveKey svc.accessToken) :: n.remoteServices }
          rest with ⟨r, n2, names, t⟩
      have spec := ih { n with remoteServices :=
          (svc.name, svc.endpoint, resolveKey svc.accessToken) :: n.remoteServices }
      rw [hr] at spec
      have hnames : names =
          (rest.takeWhile (fun c => !w.svcAddFails c.name)).map (fun c => c.name) :=
        spec.1
      have htr : t =
          (rest.take ((rest.takeWhile (fun c => !w.svcAddFails c.name)).length + 1)).map
            (fun c => Event.svcAddAttempt c.name c.endpoint (resolveKey c.accessToken)) :=
        spec.2.1
      have hiff : (r = .ok ()) ↔
          (rest.takeWhile (fun c => !w.svcAddFails c.name)).length = rest.length :=
        spec.2.2
      refine ⟨?_, ?_, ?_⟩
      · simp [registerLoop, IpfsNode.pinRemoteServiceAdd, hf, List.takeWhile_cons,
          hr, hnames]
      · simp [registerLoop, IpfsNode.pinRemoteServiceAdd, hf, List.takeWhile_cons,
          hr, htr, List.map_take]
      · have hred : ((registerLoop w n (svc :: rest)).1 = Except.ok ()) ↔
            (r = .ok ()) := by
          simp [registerLoop, IpfsNode.pinRemoteServiceAdd, hf, hr]
        rw [hred, hiff]
        have hTW : (svc :: rest).takeWhile (fun c => !w.svcAddFails c.name)
            = svc :: rest.takeWhile (fun c => !w.svcAddFails c.name) := by
          simp [List.takeWhile_cons, hf]
        rw [hTW]
        simp only [List.length_cons]
        omega

/-- C8 counterexample: with services `a` and `b` configured and the
registration of `a` rejected, `init` aborts with the registration error,
having attempted only `a` — the registration of `b` is never attempted and
no name is recorded, refuting that a registration failure does not prevent
attempting the remaining backends. -/
theorem init_aborts_on_failed_registration_cex :
    (AssetStorage.init wC8 storeC8).1 = .error (.svcAddFailed ['a']) ∧
    (AssetStorage.init wC8 storeC8).2.2 =
      [.nodeCreate, .svcAddAttempt ['a'] ['e', 'a'] ['k', 'a']] ∧
    (AssetStorage.init wC8 storeC8).2.1.pinningServices = [] :=
  ⟨rfl, rfl, rfl⟩

/-- C8 amended: during initialization, services are attempted in
configuration order with their credentials resolved (invoked when a
function), a name is appended to the known-services list only on successful
registration, and a registration failure aborts initialization immediately,
so the services after the first failing one are never attempted;
initialization succeeds exactly when every configured service registers. -/
theorem init_registration_behaviour (w : World) (s : AssetStorage)
    (h : s._initialized = false) :
    (AssetStorage.init w s).2.1.pinningServices =
      s.pinningServices ++
        (s.config.pinningServices.takeWhile (fun c => !w.svcAddFails c.name)).map
          (fun c => c.name) ∧
    (AssetStorage.init w s).2.2 =
      .nodeCreate ::
        (s.config.pinningServices.take
            ((s.config.pinningServices.takeWhile
                (fun c => !w.svcAddFails c.name)).length + 1)).map
          (fun c => Event.svcAddAttempt c.name c.endpoint (resolveKey c.accessToken)) ∧
    ((AssetStorage.init w s).1 = .ok () ↔
      (s.config.pinningServices.takeWhile (fun c => !w.svcAddFails c.name)).length =
        s.config.pinningServices.length) := by
  rcases hr : registerLoop w { content := [], remotePins := [], remoteServices := [] }
      s.config.pinningServices with ⟨r, n1, names, t⟩
  have spec := registerLoop_spec w s.config.pinningServices
    { content := [], remotePins := [], remoteServices := [] }
  rw [hr] at spec
  have hnames : names =
      (s.config.pinningServices.takeWhile (fun c => !w.svcAddFails c.name)).map
        (fun c => c.name) := spec.1
  have htr : t =
      (s.config.pinningServices.take
          ((s.config.pinningServices.takeWhile
              (fun c => !w.svcAddFails c.name)).length + 1)).map
        (fun c => Event.svcAddAttempt c.name c.endpoint (resolveKey c.accessToken)) :=
    spec.2.1
  have hiff : (r = .ok ()) ↔
      (s.config.pinningServices.takeWhile (fun c => !w.svcAddFails c.name)).length =
        s.config.pinningServices.length := spec.2.2
  rcases r with e | u
  · refine ⟨?_, ?_, ?_⟩
    · simp [AssetStorage.init, h, hr, hnames]
    · simp [AssetStorage.init, h, hr, htr]
    · rw [← hiff]
      simp [AssetStorage.init, h, hr]
  · refine ⟨?_, ?_, ?_⟩
    · simp [AssetStorage.init, h, hr, hnames]
    · simp [AssetStorage.init, h, hr, htr]
    · rw [← hiff]
      simp [AssetStorage.init, h, hr]

/-- C8 amended witness: the two-service configuration whose first
registration fails. -/
theorem init_registration_behaviour_witness :
    (AssetStorage.init wC8 storeC8).2.1.pinningServices =
      storeC8.pinningServices ++
        (storeC8.config.pinningServices.takeWhile
            (fun c => !wC8.svcAddFails c.name)).map (fun c => c.name) ∧
    (AssetStorage.init wC8 storeC8).2.2 =
      .nodeCreate ::
        (storeC8.config.pinningServices.take
            ((storeC8.config.pinningServices.takeWhile
                (fun c => !wC8.svcAddFails c.name)).length + 1)).map
          (fun c => Event.svcAddAttempt c.name c.endpoint (resolveKey c.accessToken)) ∧
    ((AssetStorage.init wC8 storeC8).1 = .ok () ↔
      (storeC8.config.pinningServices.takeWhile
          (fun c => !wC8.svcAddFails c.name)).length =
        storeC8.config.pinningServices.length) :=
  init_registration_behaviour wC8 storeC8 rfl

/-! Counting and preservation lemmas for the per-backend pin call. -/

theorem countEv_pinIfUnpinned_query (w : World) (n : IpfsNode)
    (cid svc svc' cid' : JStr) :
    countEv (Event.queryPinned svc' cid')
      (AssetStorage._pinIfUnpinned w n cid svc).2.2 =
      if svc = svc' ∧ cid = cid' then 1 else 0 := by
  unfold AssetStorage._pinIfUnpinned
  rcases h : AssetStorage.isPinned w n cid svc with e0 | b
  · simp [countEv]
  · cases b
    · rcases h2 : IpfsNode.pinRemoteAdd w n cid svc false with e0 | n1 <;>
        simp [countEv]
    · simp [countEv]

theorem countEv_pinIfUnpinned_pinReq_false (w : World) (n : IpfsNode)
    (cid svc svc' cid' : JStr) :
    countEv (Event.pinRequest svc' cid' false)
      (AssetStorage._pinIfUnpinned w n cid svc).2.2 =
      if svc = svc' ∧ cid = cid' ∧ AssetStorage.isPinned w n cid svc = .ok false
      then 1 else 0 := by
  rcases h : AssetStorage.isPinned w n cid svc with e0 | b
  · unfold AssetStorage._pinIfUnpinned
    simp [countEv, h]
  · cases b
    · unfold AssetStorage._pinIfUnpinned
      rcases h2 : IpfsNode.pinRemoteAdd w n cid svc false with e0 | n1 <;>
        simp [countEv, h]
    · unfold AssetStorage._pinIfUnpinned
      simp [countEv, h]

theorem countEv_pinIfUnpinned_pinReq_true (w : World) (n : IpfsNode)
    (cid svc svc' cid' : JStr) :
    countEv (Event.pinRequest svc' cid' true)
      (AssetStorage._pinIfUnpinned w n cid svc).2.2 = 0 := by
  unfold AssetStorage._pinIfUnpinned
  rcases h : AssetStorage.isPinned w n cid svc with e0 | b
  · simp [countEv]
  · cases b
    · rcases h2 : IpfsNode.pinRemoteAdd w n cid svc false with e0 | n1 <;>
        simp [countEv]
    · simp [countEv]

theorem pinIfUnpinned_matchingPins_ne (w : World) (n : IpfsNode)
    (cid svc svc' cid' : JStr) (h : svc ≠ svc') :
    matchingPins (AssetStorage._pinIfUnpinned w n cid svc).2.1 svc' cid' =
      matchingPins n svc' cid' := by
  unfold AssetStorage._pinIfUnpinned
  rcases hp : AssetStorage.isPinned w n cid svc with e0 | b
  · rfl
  · cases b
    · by_cases hpf : w.pinAddFails svc cid
      · simp [IpfsNode.pinRemoteAdd, hpf]
      · simp [IpfsNode.pinRemoteAdd, hpf, matchingPins, List.filter_cons, h]
    · rfl

theorem pinIfUnpinned_isPinned_ne (w : World) (n : IpfsNode)
    (cid svc svc' cid' : JStr) (h : svc ≠ svc') :
    AssetStorage.isPinned w (AssetStorage._pinIfUnpinned w n cid svc).2.1 cid' svc' =
      AssetStorage.isPinned w n cid' svc' := by
  unfold AssetStorage.isPinned IpfsNode.pinRemoteLs
  rw [pinIfUnpinned_matchingPins_ne w n cid svc svc' cid' h]

theorem pinIfUnpinned_content (w : World) (n : IpfsNode) (cid svc : JStr) :
    (AssetStorage._pinIfUnpinned w n cid svc).2.1.content = n.content := by
  unfold AssetStorage._pinIfUnpinned
  rcases hp : AssetStorage.isPinned w n cid svc with e0 | b
  · rfl
  · cases b
    · by_cases hpf : w.pinAddFails svc cid <;> simp [IpfsNode.pinRemoteAdd, hpf]
    · rfl

theorem pinFanout_content (w : World) (cid : JStr) :
    ∀ (L : List JStr) (n : IpfsNode), (pinFanout w n cid L).2.1.content = n.content := by
  intro L
  induction L with
  | nil => intro n; rfl
  | cons svc rest ih =>
    intro n
    rcases h1 : AssetStorage._pinIfUnpinned w n cid svc with ⟨r, n1, t1⟩
    rcases h2 : pinFanout w n1 cid rest with ⟨anyErr, n2, t2⟩
    have hc1 : n1.content = n.content := by
      have hx := pinIfUnpinned_content w n cid svc
      rw [h1] at hx
      exact hx
    have hc2 : n2.content = n1.content := by
      have hx := ih n1
      rw [h2] at hx
      exact hx
    simp [pinFanout, h1, h2, hc2, hc1]

theorem pinIfUnpinned_remotePins_ext (w : World) (n : IpfsNode) (cid svc : JStr) :
    ∃ pre, (AssetStorage._pinIfUnpinned w n cid svc).2.1.remotePins =
      pre ++ n.remotePins := by
  unfold AssetStorage._pinIfUnpinned
  rcases hp : AssetStorage.isPinned w n cid svc with e0 | b
  · exact ⟨[], rfl⟩
  · cases b
    · by_cases hpf : w.pinAddFails svc cid
      · refine ⟨[], ?_⟩
        simp [IpfsNode.pinRemoteAdd, hpf]
      · refine ⟨[(svc, cid)], ?_⟩
        simp [IpfsNode.pinRemoteAdd, hpf]
    · exact ⟨[], rfl⟩

theorem pinFanout_remotePins_ext (w : World) (cid : JStr) :
    ∀ (L : List JStr) (n : IpfsNode), ∃ pre,
      (pinFanout w n cid L).2.1.remotePins = pre ++ n.remotePins := by
  intro L
  induction L with
  | nil => intro n; exact ⟨[], rfl⟩
  | cons svc rest ih =>
    intro n
    rcases h1 : AssetStorage._pinIfUnpinned w n cid svc with ⟨r, n1, t1⟩
    rcases h2 : pinFanout w n1 cid rest with ⟨anyErr, n2, t2⟩
    obtain ⟨p1, hp1⟩ := pinIfUnpinned_remotePins_ext w n cid svc
    rw [h1] at hp1
    obtain ⟨p2, hp2⟩ := ih n1
    rw [h2] at hp2
    have hh1 : n1.remotePins = p1 ++ n.remotePins := hp1
    have hh2 : n2.remotePins = p2 ++ n1.remotePins := hp2
    refine ⟨p2 ++ p1, ?_⟩
    simp [pinFanout, h1, h2, hh2, hh1]

theorem pinFanout_matchingPins_mono (w : World) (cid : JStr) (L : List JStr)
    (n : IpfsNode) (svc' cid' : JStr)
    (h : matchingPins n svc' cid' ≠ []) :
    matchingPins (pinFanout w n cid L).2.1 svc' cid' ≠ [] := by
  obtain ⟨pre, hpre⟩ := pinFanout_remotePins_ext w cid L n
  unfold matchingPins at h ⊢
  rw [hpre, List.filter_append]
  intro hc
  rw [List.append_eq_nil] at hc
  exact h hc.2

theorem pinFanout_counts_notMem (w : World) (cid : JStr) :
    ∀ (L : List JStr) (n : IpfsNode) (svc : JStr), svc ∉ L →
      countEv (Event.queryPinned svc cid) (pinFanout w n cid L).2.2 = 0 ∧
      ∀ b, countEv (Event.pinRequest svc cid b) (pinFanout w n cid L).2.2 = 0 := by
  intro L
  induction L with
  | nil =>
    intro n svc _
    exact ⟨rfl, fun b => rfl⟩
  | cons s rest ih =>
    intro n svc hmem
    have hne : s ≠ svc := fun hc => hmem (by simp [hc])
    have hrest : svc ∉ rest := fun hc => hmem (by simp [hc])
    rcases h1 : AssetStorage._pinIfUnpinned w n cid s with ⟨r, n1, t1⟩
    rcases h2 : pinFanout w n1 cid rest with ⟨anyErr, n2, t2⟩
    have c1 := countEv_pinIfUnpinned_query w n cid s svc cid
    rw [h1] at c1
    have c2 := countEv_pinIfUnpinned_pinReq_false w n cid s svc cid
    rw [h1] at c2
    have c3 := countEv_pinIfUnpinned_pinReq_true w n cid s svc cid
    rw [h1] at c3
    have crest := ih n1 svc hrest
    rw [h2] at crest
    constructor
    · simp [pinFanout, h1, h2, countEv_append, c1, crest.1, hne]
    · intro b
      cases b
      · simp [pinFanout, h1, h2, countEv_append, c2, crest.2 false, hne]
      · simp [pinFanout, h1, h2, countEv_append, c3, crest.2 true, hne]

/-- The central fan-out counting lemma: for every service in a
duplicate-free list, the fan-out queries it exactly once, issues exactly one
foreground pin request when it reported the identifier unpinned (and none
when it reported it pinned or the query failed), and never issues a
background request. -/
theorem pinFanout_counts (w : World) (cid : JStr) :
    ∀ (L : List JStr) (n : IpfsNode) (svc : JStr), L.Nodup → svc ∈ L →
      countEv (Event.queryPinned svc cid) (pinFanout w n cid L).2.2 = 1 ∧
      countEv (Event.pinRequest svc cid false) (pinFanout w n cid L).2.2 =
        (if AssetStorage.isPinned w n cid svc = .ok false then 1 else 0) ∧
      countEv (Event.pinRequest svc cid true) (pinFanout w n cid L).2.2 = 0 := by
  intro L
  induction L with
  | nil =>
    intro n svc _ hmem
    simp at hmem
  | cons s rest ih =>
    intro n svc hnd hmem
    rcases h1 : AssetStorage._pinIfUnpinned w n cid s with ⟨r, n1, t1⟩
    rcases h2 : pinFanout w n1 cid rest with ⟨anyErr, n2, t2⟩
    have hndr : rest.Nodup := (List.nodup_cons.mp hnd).2
    have hsr : s ∉ rest := (List.nodup_cons.mp hnd).1
    rcases List.mem_cons.mp hmem with hcase | hcase
    · subst hcase
      have c1 := countEv_pinIfUnpinned_query w n cid svc svc cid
      rw [h1] at c1
      have c2 := countEv_pinIfUnpinned_pinReq_false w n cid svc svc cid
      rw [h1] at c2
      have c3 := countEv_pinIfUnpinned_pinReq_true w n cid svc svc cid
      rw [h1] at c3
      have crest := pinFanout_counts_notMem w cid rest n1 svc hsr
      rw [h2] at crest
      refine ⟨?_, ?_, ?_⟩
      · simp [pinFanout, h1, h2, countEv_append, c1, crest.1]
      · simp [pinFanout, h1, h2, countEv_append, c2, crest.2 false]
      · simp [pinFanout, h1, h2, countEv_append, c3, crest.2 true]
    · have hne : s ≠ svc := fun hc => hsr (hc ▸ hcase)
      have c1 := countEv_pinIfUnpinned_query w n cid s svc cid
      rw [h1] at c1
      have c2 := countEv_pinIfUnpinned_pinReq_false w n cid s svc cid
      rw [h1] at c2
      have c3 := countEv_pinIfUnpinned_pinReq_true w n cid s svc cid
      rw [h1] at c3
      have hinv := pinIfUnpinned_isPinned_ne w n cid s svc cid hne
      rw [h1] at hinv
      have crest := ih n1 svc hndr hcase
      rw [h2] at crest
      refine ⟨?_, ?_, ?_⟩
      · simp [pinFanout, h1, h2, countEv_append, c1, crest.1, hne]
      · simp [pinFanout, h1, h2, countEv_append, c2, crest.2.1, hinv, hne]
      · simp [pinFanout, h1, h2, countEv_append, c3, crest.2.2, hne]

theorem pinIfUnpinned_pins_self (w : World) (n : IpfsNode) (cid svc : JStr)
    (hls : w.lsFails svc cid = false) (hpa : w.pinAddFails svc cid = false) :
    matchingPins (AssetStorage._pinIfUnpinned w n cid svc).2.1 svc cid ≠ [] := by
  have hip : AssetStorage.isPinned w n cid svc =
      .ok (!(matchingPins n svc cid).isEmpty) := by
    simp [AssetStorage.isPinned, IpfsNode.pinRemoteLs, hls]
  unfold AssetStorage._pinIfUnpinned
  rw [hip]
  cases hemp : (matchingPins n svc cid).isEmpty
  · simp only [Bool.not_false]
    intro hc
    rw [hc] at hemp
    simp at hemp
  · simp only [Bool.not_true, IpfsNode.pinRemoteAdd, hpa, Bool.false_eq_true,
      if_false]
    simp [matchingPins, List.filter_cons]

theorem pinFanout_pins_all (w : World) (cid : JStr) :
    ∀ (L : List JStr) (n : IpfsNode),
      (∀ svc ∈ L, w.lsFails svc cid = false ∧ w.pinAddFails svc cid = false) →
      ∀ svc ∈ L, matchingPins (pinFanout w n cid L).2.1 svc cid ≠ [] := by
  intro L
  induction L with
  | nil =>
    intro n _ svc hmem
    simp at hmem
  | cons s rest ih =>
    intro n hok svc hmem
    rcases h1 : AssetStorage._pinIfUnpinned w n cid s with ⟨r, n1, t1⟩
    rcases h2 : pinFanout w n1 cid rest with ⟨anyErr, n2, t2⟩
    have hnode : (pinFanout w n cid (s :: rest)).2.1 = n2 := by
      simp [pinFanout, h1, h2]
    rw [hnode]
    rcases List.mem_cons.mp hmem with hcase | hcase
    · subst hcase
      have h1pins : matchingPins n1 svc cid ≠ [] := by
        have hx := pinIfUnpinned_pins_self w n cid svc
          (hok svc (by simp)).1 (hok svc (by simp)).2
        rw [h1] at hx
        exact hx
      have hmono := pinFanout_matchingPins_mono w cid rest n1 svc cid h1pins
      rw [h2] at hmono
      exact hmono
    · have hx := ih n1 (fun x hx => hok x (by simp [hx])) svc hcase
      rw [h2] at hx
      exact hx

theorem pin_state_noServices (w : World) (s : AssetStorage) (cid : JStr)
    (hinit : s._initialized = true) (hsv : s.pinningServices = []) :
    (AssetStorage.pin w s cid).2.1 = s := by
  unfold AssetStorage.pin
  simp [AssetStorage.init, hinit, hsv]

theorem pin_state_initialized (w : World) (s : AssetStorage) (n : IpfsNode)
    (cid : JStr) (hinit : s._initialized = true) (hipfs : s.ipfs = some n)
    (hne : s.pinningServices ≠ []) :
    (AssetStorage.pin w s cid).2.1 =
      { s with ipfs := some (pinFanout w n cid s.pinningServices).2.1 } := by
  have hl : ¬(s.pinningServices.length < 1) := by
    rcases hsv : s.pinningServices with _ | ⟨a, l⟩
    · exact absurd hsv hne
    · intro hc
      simp at hc
  unfold AssetStorage.pin
  simp only [AssetStorage.init, hinit, if_true]
  rw [if_neg hl]
  simp only [hipfs]

/-- The pin-request and query counts of a `pin` call on an initialized store
are those of its fan-out (the surrounding log lines contribute nothing). -/
theorem pin_counts_eq_fanout (w : World) (s : AssetStorage) (n : IpfsNode)
    (cid : JStr) (hinit : s._initialized = true) (hipfs : s.ipfs = some n) :
    (∀ svc b, countEv (Event.pinRequest svc cid b) (AssetStorage.pin w s cid).2.2 =
      countEv (Event.pinRequest svc cid b)
        (pinFanout w n cid s.pinningServices).2.2) ∧
    (∀ svc, countEv (Event.queryPinned svc cid) (AssetStorage.pin w s cid).2.2 =
      countEv (Event.queryPinned svc cid)
        (pinFanout w n cid s.pinningServices).2.2) := by
  unfold AssetStorage.pin
  simp only [AssetStorage.init, hinit, if_true]
  by_cases hl : s.pinningServices.length < 1
  · have hsv : s.pinningServices = [] := List.length_eq_zero.mp (by omega)
    rw [if_pos hl, hsv]
    constructor
    · intro svc b
      simp [pinFanout, countEv]
    · intro svc
      simp [pinFanout, countEv]
  · rw [if_neg hl]
    simp only [hipfs]
    rcases hf : pinFanout w n cid s.pinningServices with ⟨anyErr, n1, t2⟩
    simp only [hf]
    constructor
    · intro svc b
      cases anyErr <;> simp [countEv_append, countEv]
    · intro svc
      cases anyErr <;> simp [countEv_append, countEv]

/-- C2: on an initialized store with at least one registered backend (names
unique, per the registration invariant), `pin(cid)` queries the pinned
status on every registered backend exactly once, issues exactly one
foreground (`background: false`) pin request to each backend that reported
the identifier not pinned, never issues a background request, and returns
successfully with a state that reflects the settled outcome of every
backend's operation. -/
theorem pin_fanout_complete (w : World) (s : AssetStorage) (n : IpfsNode)
    (cid : JStr) (hinit : s._initialized = true) (hipfs : s.ipfs = some n)
    (hnd : s.pinningServices.Nodup) (hne : s.pinningServices ≠ []) :
    (AssetStorage.pin w s cid).1 = .ok () ∧
    (AssetStorage.pin w s cid).2.1.ipfs =
      some (pinFanout w n cid s.pinningServices).2.1 ∧
    ∀ svc ∈ s.pinningServices,
      countEv (Event.queryPinned svc cid) (AssetStorage.pin w s cid).2.2 = 1 ∧
      (AssetStorage.isPinned w n cid svc = .ok false →
        countEv (Event.pinRequest svc cid false)
          (AssetStorage.pin w s cid).2.2 = 1) ∧
      countEv (Event.pinRequest svc cid true) (AssetStorage.pin w s cid).2.2 = 0 := by
  have hl : ¬(s.pinningServices.length < 1) := by
    rcases hsv : s.pinningServices with _ | ⟨a, l⟩
    · exact absurd hsv hne
    · intro hc
      simp at hc
  unfold AssetStorage.pin
  simp only [AssetStorage.init, hinit, if_true]
  rw [if_neg hl]
  simp only [hipfs]
  rcases hf : pinFanout w n cid s.pinningServices with ⟨anyErr, n1, t2⟩
  simp only [hf]
  refine ⟨trivial, trivial, ?_⟩
  intro svc hsvc
  have counts := pinFanout_counts w cid s.pinningServices n svc hnd hsvc
  rw [hf] at counts
  refine ⟨?_, ?_, ?_⟩
  · cases anyErr <;> simp [countEv_append, countEv, counts.1]
  · intro hrep
    cases anyErr <;> simp [countEv_append, countEv, counts.2.1, hrep]
  · cases anyErr <;> simp [countEv_append, countEv, counts.2.2]

/-- C2 witness: one registered backend on an initialized store. -/
theorem pin_fanout_complete_witness :
    (AssetStorage.pin wEx sEx ['c']).1 = .ok () ∧
    (AssetStorage.pin wEx sEx ['c']).2.1.ipfs =
      some (pinFanout wEx nodeEmpty ['c'] sEx.pinningServices).2.1 ∧
    ∀ svc ∈ sEx.pinningServices,
      countEv (Event.queryPinned svc ['c']) (AssetStorage.pin wEx sEx ['c']).2.2 = 1 ∧
      (AssetStorage.isPinned wEx nodeEmpty ['c'] svc = .ok false →
        countEv (Event.pinRequest svc ['c'] false)
          (AssetStorage.pin wEx sEx ['c']).2.2 = 1) ∧
      countEv (Event.pinRequest svc ['c'] true)
        (AssetStorage.pin wEx sEx ['c']).2.2 = 0 :=
  pin_fanout_complete wEx sEx nodeEmpty ['c'] rfl rfl (by decide) (by decide)

/-- C3: (a) a backend that reports the identifier as already pinned receives
zero pin requests from `pin(cid)`; (b) after a first `pin(cid)` in which
every backend's query and pin operation succeeded, a second `pin(cid)` on
the resulting store issues zero pin requests to any backend. -/
theorem pin_idempotent_when_pinned (w : World) (s : AssetStorage) (n : IpfsNode)
    (cid : JStr) (hinit : s._initialized = true) (hipfs : s.ipfs = some n)
    (hnd : s.pinningServices.Nodup) :
    (∀ svc ∈ s.pinningServices,
      AssetStorage.isPinned w n cid svc = .ok true →
      ∀ b, countEv (Event.pinRequest svc cid b)
        (AssetStorage.pin w s cid).2.2 = 0) ∧
    ((∀ svc ∈ s.pinningServices,
        w.lsFails svc cid = false ∧ w.pinAddFails svc cid = false) →
      ∀ svc b, countEv (Event.pinRequest svc cid b)
        (AssetStorage.pin w (AssetStorage.pin w s cid).2.1 cid).2.2 = 0) := by
  refine ⟨?_, ?_⟩
  · intro svc hsvc hpinned b
    have hc := (pin_counts_eq_fanout w s n cid hinit hipfs).1 svc b
    rw [hc]
    have counts := pinFanout_counts w cid s.pinningServices n svc hnd hsvc
    cases b
    · rw [counts.2.1, hpinned]
      simp
    · exact counts.2.2
  · intro hfree svc b
    by_cases hemp : s.pinningServices = []
    · have hstate := pin_state_noServices w s cid hinit hemp
      rw [hstate]
      have hc := (pin_counts_eq_fanout w s n cid hinit hipfs).1 svc b
      rw [hc, hemp]
      rfl
    · have hstate := pin_state_initialized w s n cid hinit hipfs hemp
      rw [hstate]
      have hc := (pin_counts_eq_fanout w
          { s with ipfs := some (pinFanout w n cid s.pinningServices).2.1 }
          (pinFanout w n cid s.pinningServices).2.1 cid hinit rfl).1 svc b
      rw [hc]
      show countEv (Event.pinRequest svc cid b)
        (pinFanout w (pinFanout w n cid s.pinningServices).2.1 cid
          s.pinningServices).2.2 = 0
      by_cases hmem : svc ∈ s.pinningServices
      · have counts := pinFanout_counts w cid s.pinningServices
          (pinFanout w n cid s.pinningServices).2.1 svc hnd hmem
        have hpinnedN1 : AssetStorage.isPinned w
            (pinFanout w n cid s.pinningServices).2.1 cid svc = .ok true := by
          have hnnil := pinFanout_pins_all w cid s.pinningServices n hfree svc hmem
          have hlsf := (hfree svc hmem).1
          rcases hmp : matchingPins (pinFanout w n cid s.pinningServices).2.1 svc cid
              with _ | ⟨p, ps⟩
          · exact absurd hmp hnnil
          · simp [AssetStorage.isPinned, IpfsNode.pinRemoteLs, hlsf, hmp]
        cases b
        · rw [counts.2.1, hpinnedN1]
          simp
        · exact counts.2.2
      · have counts := pinFanout_counts_notMem w cid s.pinningServices
          (pinFanout w n cid s.pinningServices).2.1 svc hmem
        cases b
        · exact counts.2 false
        · exact counts.2 true

/-- C3 witness: one backend that already pins the identifier `c`. -/
theorem pin_idempotent_when_pinned_witness :
    (∀ svc ∈ sPinned.pinningServices,
      AssetStorage.isPinned wEx nodePinned ['c'] svc = .ok true →
      ∀ b, countEv (Event.pinRequest svc ['c'] b)
        (AssetStorage.pin wEx sPinned ['c']).2.2 = 0) ∧
    ((∀ svc ∈ sPinned.pinningServices,
        wEx.lsFails svc ['c'] = false ∧ wEx.pinAddFails svc ['c'] = false) →
      ∀ svc b, countEv (Event.pinRequest svc ['c'] b)
        (AssetStorage.pin wEx
          (AssetStorage.pin wEx sPinned ['c']).2.1 ['c']).2.2 = 0) :=
  pin_idempotent_when_pinned wEx sPinned nodePinned ['c'] rfl rfl (by decide)

theorem init_ok_state (w : World) (s : AssetStorage)
    (hok : (AssetStorage.init w s).1 = .ok ())
    (hwf : s._initialized = true → s.ipfs ≠ none) :
    (AssetStorage.init w s).2.1._initialized = true ∧
    ∃ n, (AssetStorage.init w s).2.1.ipfs = some n := by
  by_cases hi : s._initialized = true
  · rcases hso : s.ipfs with _ | n0
    · exact absurd hso (hwf hi)
    · unfold AssetStorage.init
      simp [hi, hso]
  · unfold AssetStorage.init at hok ⊢
    rw [if_neg hi] at hok ⊢
    rcases hr : registerLoop w { content := [], remotePins := [], remoteServices := [] }
        s.config.pinningServices with ⟨r, n1, names, t⟩
    simp only [hr] at hok ⊢
    rcases r with e | u
    · simp at hok
    · simp

theorem pin_initialized_ok_content (w : World) (s : AssetStorage) (n : IpfsNode)
    (cid : JStr) (hinit : s._initialized = true) (hipfs : s.ipfs = some n) :
    (AssetStorage.pin w s cid).1 = .ok () ∧
    ∃ n', (AssetStorage.pin w s cid).2.1.ipfs = some n' ∧
      n'.content = n.content := by
  have hokPin : (AssetStorage.pin w s cid).1 = .ok () := by
    unfold AssetStorage.pin
    simp only [AssetStorage.init, hinit, if_true]
    by_cases hl : s.pinningServices.length < 1
    · simp [hl]
    · rw [if_neg hl]
      simp only [hipfs]
  refine ⟨hokPin, ?_⟩
  by_cases hemp : s.pinningServices = []
  · have hstate := pin_state_noServices w s cid hinit hemp
    exact ⟨n, by rw [hstate]; exact hipfs, rfl⟩
  · have hstate := pin_state_initialized w s n cid hinit hipfs hemp
    refine ⟨(pinFanout w n cid s.pinningServices).2.1, ?_, ?_⟩
    · rw [hstate]
    · exact pinFanout_content w cid s.pinningServices n

/-- C1: round-trip — on any store whose initialization succeeds (with the
node present when the flag is already set), `addAsset(filename, b)` returns
the content-derived identifier of `b`, and `get` on that identifier yields
exactly `b`.  The hypotheses spell out what "the underlying node faithfully
stores and returns content" means in the model: the stored chunks
concatenate back to the bytes, and the content-derived identifier is a bare
identifier (no `ipfs://` scheme), as real multibase identifiers are. -/
theorem addAsset_get_roundtrip (w : World) (s : AssetStorage) (filename : JStr)
    (b : Bytes)
    (hchunk : (w.chunk b).flatten = b)
    (hcid : jsStartsWith (w.hash b) ipfsScheme = false)
    (hok : (AssetStorage.init w s).1 = .ok ())
    (hwf : s._initialized = true → s.ipfs ≠ none) :
    (AssetStorage.addAsset w s filename (some b)).1 = .ok (w.hash b) ∧
    (AssetStorage.get (AssetStorage.addAsset w s filename (some b)).2.1
      (w.hash b)).1 = .ok b := by
  obtain ⟨hinit1, n0, hipfs1⟩ := init_ok_state w s hok hwf
  rcases hI : AssetStorage.init w s with ⟨r1, s1, t1⟩
  have hok' : r1 = .ok () := by rw [hI] at hok; exact hok
  subst hok'
  have hinit1' : s1._initialized = true := by rw [hI] at hinit1; exact hinit1
  have hipfs1' : s1.ipfs = some n0 := by rw [hI] at hipfs1; exact hipfs1
  unfold AssetStorage.addAsset
  simp only [hI, hipfs1', IpfsNode.addContent]
  obtain ⟨hok2, n2, hipfs2, hc2⟩ := pin_initialized_ok_content w
    { s1 with ipfs := some { n0 with
        content := (w.hash b, w.chunk b) :: n0.content } }
    { n0 with content := (w.hash b, w.chunk b) :: n0.content }
    (w.hash b) hinit1' rfl
  rcases hp : AssetStorage.pin w
      { s1 with ipfs := some { n0 with
          content := (w.hash b, w.chunk b) :: n0.content } }
      (w.hash b) with ⟨rp, s3, t2⟩
  rw [hp] at hok2 hipfs2
  have hok2' : rp = .ok () := hok2
  subst hok2'
  have hipfs2' : s3.ipfs = some n2 := hipfs2
  simp only [hp]
  constructor
  · trivial
  · simp only [AssetStorage.get, resolveCid_of_not_scheme _ hcid, hipfs2']
    simp only [IpfsNode.catChunks, hc2]
    simp [List.lookup, hchunk]

/-- C1 witness: a two-byte asset on an initialized store with one service. -/
theorem addAsset_get_roundtrip_witness :
    (AssetStorage.addAsset wEx sEx ['f'] (some [1, 2])).1 = .ok (wEx.hash [1, 2]) ∧
    (AssetStorage.get (AssetStorage.addAsset wEx sEx ['f'] (some [1, 2])).2.1
      (wEx.hash [1, 2])).1 = .ok [1, 2] :=
  addAsset_get_roundtrip wEx sEx ['f'] [1, 2] rfl (by decide) rfl
    (fun _ h => Option.noConfusion h)
